import Mathlib

/-!
Shallow embedding of the core of the Interactive-Learning-Tool repository
(question domain model, selector algorithms, evaluator protocol, store
mutation and id assignment), translated from:

- `src/core/question.py`
- `src/core/selector.py`
- `src/core/evaluator.py`
- `src/core/quiz_manager.py`
- `src/persistence/file_handler.py`
- `src/llm/llm_client.py` (the `judge_freeform` normalization layer)

Python dynamic values that can appear in persisted records are modelled by
`PyVal` (ints, strings, booleans, `None`, lists); Python `float` weights are
modelled exactly over `ℚ` (the source's constants 0.1 and 0.25 are taken at
their exact rational value).  Fallible Python operations (`int(...)`,
`.lower()` on arbitrary values, `list(...)`) are modelled in `Option`, with
`none` standing for a raised exception.  Randomness (`random.choices`,
`random.sample`, `random.random`) is modelled by explicit draw parameters.
-/

/-- A Python runtime value as it can occur in a persisted question record. -/
inductive PyVal where
  | vint (n : Int)
  | vbool (b : Bool)
  | vstr (s : String)
  | vnone
  | vlist (l : List PyVal)
deriving Repr

/-- Python truthiness (`bool(v)` / use of `v` in a condition or `or`). -/
def pyTruthy : PyVal → Bool
  | .vint n => n ≠ 0
  | .vbool b => b
  | .vstr s => s ≠ ""
  | .vnone => false
  | .vlist l => !l.isEmpty

/-- Python `a or b` (returns `a` when truthy, else `b`). -/
def pyOr (a b : PyVal) : PyVal :=
  if pyTruthy a then a else b

/-- Whether a value is Python `None` (`v is None`). -/
def PyVal.isNoneV : PyVal → Bool
  | .vnone => true
  | _ => false

/-- Characters removed by Python `str.strip()` (ASCII whitespace; the
source data only involves ASCII). -/
def pyWS (c : Char) : Bool := c.isWhitespace

/-- Left-then-right whitespace strip on a character list. -/
def stripChars (l : List Char) : List Char :=
  (((l.dropWhile pyWS).reverse.dropWhile pyWS)).reverse

/-- Python `s.strip()`. -/
def pyStrip (s : String) : String := ⟨stripChars s.data⟩

/-- Python `s.lower()` (ASCII case folding). -/
def pyLower (s : String) : String := ⟨s.data.map Char.toLower⟩

/-- Parse a nonempty run of decimal digits. -/
def parseDigits : List Char → Option Nat
  | [] => none
  | l =>
    if l.all Char.isDigit then
      some (l.foldl (fun acc c => acc * 10 + (c.toNat - '0'.toNat)) 0)
    else none

/-- Python `int(s)` on a string: optional surrounding whitespace, optional
sign, a nonempty digit run; anything else raises (`none`). -/
def pyStrToInt (s : String) : Option Int :=
  match (pyStrip s).data with
  | '+' :: rest => (parseDigits rest).map (fun n => (n : Int))
  | '-' :: rest => (parseDigits rest).map (fun n => -(n : Int))
  | l => (parseDigits l).map (fun n => (n : Int))

/-- Python `int(v)`: ints pass through, booleans become 0/1, strings are
parsed, everything else raises (`none`). -/
def pyToInt : PyVal → Option Int
  | .vint n => some n
  | .vbool b => some (if b then 1 else 0)
  | .vstr s => pyStrToInt s
  | .vnone => none
  | .vlist _ => none

/-- Python `str(v)`. -/
def pyStr : PyVal → String
  | .vint n => toString n
  | .vbool b => if b then "True" else "False"
  | .vstr s => s
  | .vnone => "None"
  | .vlist _ => "[...]"

/-- Python `(v).lower()`: only defined on strings, otherwise raises. -/
def pyLowerVal : PyVal → Option String
  | .vstr s => some (pyLower s)
  | _ => none

/-- Python `list(v)`: lists are copied, strings explode into one-character
strings, everything else raises (`none`). -/
def pyToList : PyVal → Option (List PyVal)
  | .vlist l => some l
  | .vstr s => some (s.data.map (fun c => PyVal.vstr (String.singleton c)))
  | _ => none

/-!
## Question domain model (`src/core/question.py`)

`QBase` holds the fields of the Python base dataclass `Question`;
`MCQQuestion` and `FreeformQuestion` add their variant fields, and
`Question` is the closed sum of the two concrete variants (the only ones the
program constructs).  Runtime-dynamic fields keep their runtime type:
`options` and `explanation` are `PyVal`s, with `PyVal.vnone` playing the
role of Python `None` for an absent explanation.
-/

structure QBase where
  id : Int
  topic : String
  type : String
  question : String
  source : String
  active : Bool
  times_shown : Int
  correct_count : Int
  incorrect_count : Int
deriving Repr

structure MCQQuestion where
  base : QBase
  options : List PyVal
  correct_answer : String
  explanation : PyVal
deriving Repr

structure FreeformQuestion where
  base : QBase
  reference_answer : String
deriving Repr

inductive Question where
  | mcq (m : MCQQuestion)
  | freeform (f : FreeformQuestion)
deriving Repr

/-- The shared base fields of either variant. -/
def Question.base : Question → QBase
  | .mcq m => m.base
  | .freeform f => f.base

/-- Apply an update to the shared base fields, keeping the variant payload. -/
def Question.mapBase (g : QBase → QBase) : Question → Question
  | .mcq m => .mcq { m with base := g m.base }
  | .freeform f => .freeform { f with base := g f.base }

/-- The variant-specific payload, used to state that an operation leaves
every non-base field untouched. -/
def Question.payload : Question → (List PyVal × String × PyVal) ⊕ String
  | .mcq m => .inl (m.options, m.correct_answer, m.explanation)
  | .freeform f => .inr f.reference_answer

/-- Whether the value is the multiple-choice variant. -/
def Question.isMCQ : Question → Bool
  | .mcq _ => true
  | .freeform _ => false

/-- A persisted question record: a Python dict keyed by the fixed field
names, each key either absent (`none`) or bound to a runtime value. -/
structure RawDict where
  id : Option PyVal := none
  topic : Option PyVal := none
  type : Option PyVal := none
  question : Option PyVal := none
  source : Option PyVal := none
  active : Option PyVal := none
  times_shown : Option PyVal := none
  correct_count : Option PyVal := none
  incorrect_count : Option PyVal := none
  options : Option PyVal := none
  correct_answer : Option PyVal := none
  explanation : Option PyVal := none
  reference_answer : Option PyVal := none
deriving Repr

/-- `Question.as_dict` on the base fields (`src/core/question.py`,
`Question.as_dict`): every base field is written under its own key. -/
def QBase.baseDict (b : QBase) : RawDict where
  id := some (.vint b.id)
  topic := some (.vstr b.topic)
  type := some (.vstr b.type)
  question := some (.vstr b.question)
  source := some (.vstr b.source)
  active := some (.vbool b.active)
  times_shown := some (.vint b.times_shown)
  correct_count := some (.vint b.correct_count)
  incorrect_count := some (.vint b.incorrect_count)

/-- Serialization (`as_dict` of `MCQQuestion` / `FreeformQuestion`): the MCQ
variant adds `options` and `correct_answer` and writes `explanation` only
when it `is not None`; the freeform variant adds `reference_answer`. -/
def Question.as_dict : Question → RawDict
  | .mcq m =>
    { m.base.baseDict with
      options := some (.vlist m.options)
      correct_answer := some (.vstr m.correct_answer)
      explanation := if m.explanation.isNoneV then none else some m.explanation }
  | .freeform f =>
    { f.base.baseDict with reference_answer := some (.vstr f.reference_answer) }

/-- Deserialization (`Question.from_dict`): `none` models a raised Python
exception (`int(...)` on a non-numeric value, `.lower()` on a truthy
non-string `type`, `list(...)` on a truthy non-iterable `options`). -/
def Question.from_dict (dictionary : RawDict) : Option Question := do
  let qtype ← pyLowerVal (pyOr (dictionary.type.getD .vnone) (.vstr ""))
  let idv ← pyToInt (dictionary.id.getD (.vint 0))
  let topic := pyStr (dictionary.topic.getD (.vstr ""))
  let questionText := pyStr (dictionary.question.getD (.vstr ""))
  let source := pyStr (dictionary.source.getD (.vstr "LLM"))
  let active := pyTruthy (dictionary.active.getD (.vbool true))
  let times_shown ← pyToInt (dictionary.times_shown.getD (.vint 0))
  let correct_count ← pyToInt (dictionary.correct_count.getD (.vint 0))
  let incorrect_count ← pyToInt (dictionary.incorrect_count.getD (.vint 0))
  let b : QBase :=
    { id := idv, topic := topic, type := qtype, question := questionText,
      source := source, active := active, times_shown := times_shown,
      correct_count := correct_count, incorrect_count := incorrect_count }
  if qtype = "multiple-choice" then
    let opts ← pyToList (pyOr (dictionary.options.getD (.vlist [])) (.vlist []))
    some (.mcq
      { base := b
        options := opts
        correct_answer := pyStr (dictionary.correct_answer.getD (.vstr ""))
        explanation := dictionary.explanation.getD .vnone })
  else
    some (.freeform
      { base := b
        reference_answer := pyStr (dictionary.reference_answer.getD (.vstr "")) })

/-!
## Selector (`src/core/selector.py`)

`weighted_choice` is `random.choices(questions, weights, k=1)[0]`: CPython
computes the running (cumulative) weight totals and returns
`population[bisect_right(cum_weights, x, 0, len - 1)]` where
`x = random() * total`.  Because the weights are strictly positive the
cumulative totals are strictly increasing, and on a sorted list
`bisect_right` over the first `len - 1` entries is exactly the count of
those entries that are `≤ x`.  The external draw `x` is an explicit
parameter; the float arithmetic is modelled exactly over `ℚ`.
-/

/-- Per-candidate weight of `weighted_choice`: clamp the counters at 0,
take `1 + incorrect - 0.25 * correct`, and raise anything below `0.1` to
`0.1`. -/
def weight (q : Question) : ℚ :=
  let incorrect : Int := max 0 q.base.incorrect_count
  let correct : Int := max 0 q.base.correct_count
  let weighting_mechanism : ℚ := 1 + (incorrect : ℚ) - (1/4) * (correct : ℚ)
  if weighting_mechanism < 1/10 then 1/10 else weighting_mechanism

/-- Running totals of a weight list (`itertools.accumulate`). -/
def cumFrom (acc : ℚ) : List ℚ → List ℚ
  | [] => []
  | w :: ws => (acc + w) :: cumFrom (acc + w) ws

/-- `weighted_choice(questions)` with the random draw `x` made explicit:
raises `ValueError` on an empty list, otherwise one weighted draw. -/
def weighted_choice (x : ℚ) : List Question → Except String Question
  | [] => .error "No questions to choose from"
  | q :: rest =>
    let qs := q :: rest
    let cum := cumFrom 0 (qs.map weight)
    let idx := ((cum.take (qs.length - 1)).filter (fun c => c ≤ x)).length
    .ok (qs.getD idx q)

/-- One selection step of `random.sample` (Fisher–Yates style): draw a
position among the remaining items, emit it, and recurse on the rest.  The
draws are an explicit parameter `rand`, reduced modulo the number of
remaining items so that every draw is in range. -/
def pickAux (rand : Nat → Nat) : Nat → List Question → Nat → List Question
  | _, _, 0 => []
  | _, [], _ + 1 => []
  | step, a :: l, k + 1 =>
    let j := rand step % (a :: l).length
    (a :: l).getD j a :: pickAux rand (step + 1) ((a :: l).eraseIdx j) k

/-- `random_unique(questions, n)`: empty for `n ≤ 0`, otherwise
`random.sample(questions, min(n, len(questions)))`. -/
def random_unique (rand : Nat → Nat) (questions : List Question)
    (number_of_questions : Int) : List Question :=
  if number_of_questions ≤ 0 then []
  else pickAux rand 0 questions (min number_of_questions.toNat questions.length)

/-!
## Evaluator (`src/core/evaluator.py`) and the delegated judgment
(`src/llm/llm_client.py`, `judge_freeform`)

The network response parsed from the model's JSON is external input,
modelled by `NetResult`.  `judge_freeform` (repository code) either
forwards an error-shaped response unchanged or normalizes the success
shape, stripping both `judgment` and `explanation`.
-/

/-- `evaluate_mcq(mcq_question, user_choice)`: whitespace-trimmed,
case-insensitive comparison with the stored correct answer; the returned
explanation is `mcq_question.explanation or ""`. -/
def evaluate_mcq (mcq_question : MCQQuestion) (user_choice : String) :
    Bool × PyVal :=
  (pyLower (pyStrip user_choice) = pyLower (pyStrip mcq_question.correct_answer),
   pyOr mcq_question.explanation (.vstr ""))

/-- The `error` value of an error-shaped LLM response
(`{error: {type, message}}`); only the optional `message` is ever read. -/
structure ErrObj where
  message : Option String
deriving Repr

/-- A parsed JSON-object response from the model, as produced by
`LLMClient.complete`: possibly error-shaped, with optional `judgment` and
`explanation` string fields. -/
structure NetResult where
  error : Option ErrObj := none
  judgment : Option String := none
  explanation : Option String := none
deriving Repr

/-- `judge_freeform` (`src/llm/llm_client.py`): forward an error-shaped
response unchanged, otherwise return
`{judgment: (judgment or "").strip(), explanation: (explanation or "").strip()}`. -/
def judge_freeform (net : NetResult) : NetResult :=
  if net.error.isSome then net
  else
    { error := none
      judgment := some (pyStrip (net.judgment.getD ""))
      explanation := some (pyStrip (net.explanation.getD "")) }

/-- `evaluate_freeform(freeform_question, user_answer)`: short-circuit
blank answers, then branch on the delegated result's error shape, else
compare the stripped lowered judgment with `"correct"`. -/
def evaluate_freeform (freeform_question : FreeformQuestion)
    (user_answer : String) (net : NetResult) : Bool × String :=
  if pyStrip user_answer = "" then (false, "The question was not answered")
  else
    let result := judge_freeform net
    match result.error with
    | some e => (false, "LLM error: " ++ e.message.getD "Unknown")
    | none =>
      (pyLower (pyStrip (result.judgment.getD "")) = "correct",
       result.explanation.getD "")

/-!
## Persistence (`src/persistence/file_handler.py`) and the store
(`src/core/quiz_manager.py`)
-/

/-- `get_next_id(questions)`: fold over the records, keeping the largest
`int(record.get("id", 0))` that converts without raising (starting from 0),
and add 1. -/
def get_next_id (questions : List RawDict) : Int :=
  (questions.foldl
    (fun max_id q =>
      match pyToInt (q.id.getD (.vint 0)) with
      | some qid => if qid > max_id then qid else max_id
      | none => max_id)
    0) + 1

/-- Overwrite a question's id (the `question.id = next_id` assignment). -/
def Question.setId (q : Question) (i : Int) : Question :=
  q.mapBase (fun b => { b with id := i })

/-- The id-assignment loop of `add_questions`: give the items consecutive
ids starting at `next`. -/
def assignIds (next : Int) : List Question → List Question
  | [] => []
  | q :: rest => q.setId next :: assignIds (next + 1) rest

/-- `QuizManager.add_questions(new_questions)` on the in-memory list:
compute the next free id from the serialized store, then assign and append
in input order (persistence is out of scope of the in-memory claim). -/
def add_questions (questions new_questions : List Question) : List Question :=
  questions ++ assignIds (get_next_id (questions.map Question.as_dict)) new_questions

/-- `QuizManager.record_result(question, is_correct)` on the question's
fields: bump `times_shown`, then exactly one of the two counters. -/
def record_result (question : Question) (is_correct : Bool) : Question :=
  question.mapBase (fun b =>
    let b := { b with times_shown := b.times_shown + 1 }
    if is_correct then { b with correct_count := b.correct_count + 1 }
    else { b with incorrect_count := b.incorrect_count + 1 })

/-!
## Concrete sample values used as evaluation inputs
-/

/-- A base record with the constructor defaults of the Python dataclass. -/
def sampleBase : QBase :=
  { id := 7, topic := "math", type := "freeform", question := "2+2?",
    source := "LLM", active := true, times_shown := 3, correct_count := 2,
    incorrect_count := 1 }

/-- A sample freeform question. -/
def sampleFree : FreeformQuestion := { base := sampleBase, reference_answer := "4" }

/-- A sample question value. -/
def sampleQ : Question := .freeform sampleFree

/-- A canonical multiple-choice question (type tag `"multiple-choice"`,
explanation absent). -/
def sampleMCQ : MCQQuestion :=
  { base := { sampleBase with type := "multiple-choice" }
    options := [.vstr "3", .vstr "4"]
    correct_answer := "4"
    explanation := .vnone }

/-- A multiple-choice question whose `type` tag is not the canonical
lowercase `"multiple-choice"` literal. -/
def qBadType : Question :=
  .mcq { sampleMCQ with base := { sampleBase with type := "zzz" } }

/-- A multiple-choice question whose stored correct answer is whitespace. -/
def blankMCQ : MCQQuestion := { sampleMCQ with correct_answer := "  " }

/-- A store whose questions carry ids 1, 3, 2. -/
def exStore : List Question :=
  [.freeform { base := { sampleBase with id := 1 }, reference_answer := "a" },
   .freeform { base := { sampleBase with id := 3 }, reference_answer := "b" },
   .freeform { base := { sampleBase with id := 2 }, reference_answer := "c" }]

/-- Three freshly minted questions (id 0, pending insertion). -/
def exNew : List Question :=
  [.freeform { base := { sampleBase with id := 0 }, reference_answer := "x" },
   .mcq { sampleMCQ with base := { sampleMCQ.base with id := 0 } },
   .freeform { base := { sampleBase with id := 0 }, reference_answer := "y" }]

/-!
## Helper lemmas
-/

/-- `dropWhile` is idempotent. -/
theorem dropWhile_dropWhile_self {α : Type} (p : α → Bool) :
    ∀ l : List α, (l.dropWhile p).dropWhile p = l.dropWhile p := by
  intro l
  induction l with
  | nil => rfl
  | cons a t ih =>
    by_cases h : p a
    · simp only [List.dropWhile_cons, h, if_true]
      exact ih
    · simp [List.dropWhile_cons, h]

/-- If stripping the front of `l` removes nothing, the same holds for any
initial segment of `l`. -/
theorem dropWhile_eq_self_of_isPrefixOf {α : Type} (p : α → Bool)
    {t l : List α} (hpre : t <+: l) (hl : l.dropWhile p = l) :
    t.dropWhile p = t := by
  cases t with
  | nil => rfl
  | cons a tt =>
    have ha : p a = false := by
      obtain ⟨s, rfl⟩ := hpre
      by_contra hpa
      have hpa' : p a = true := by
        cases hq : p a
        · exact absurd hq hpa
        · rfl
      have hdrop : ((a :: tt) ++ s).dropWhile p = (tt ++ s).dropWhile p := by
        simp [List.dropWhile_cons, hpa']
      have hlen : ((tt ++ s).dropWhile p).length ≤ (tt ++ s).length :=
        (List.dropWhile_sublist p).length_le
      rw [hdrop] at hl
      have hle := congrArg List.length hl
      simp only [List.length_append, List.length_cons] at hlen hle
      omega
    simp [List.dropWhile_cons, ha]

/-- `stripChars` is idempotent. -/
theorem stripChars_idem (l : List Char) : stripChars (stripChars l) = stripChars l := by
  unfold stripChars
  have h1 : (l.dropWhile pyWS).dropWhile pyWS = l.dropWhile pyWS :=
    dropWhile_dropWhile_self pyWS l
  have hpre :
      ((l.dropWhile pyWS).reverse.dropWhile pyWS).reverse <+: l.dropWhile pyWS := by
    apply List.reverse_suffix.mp
    rw [List.reverse_reverse]
    exact List.dropWhile_suffix pyWS
  have h2 :
      (((l.dropWhile pyWS).reverse.dropWhile pyWS).reverse).dropWhile pyWS =
        ((l.dropWhile pyWS).reverse.dropWhile pyWS).reverse :=
    dropWhile_eq_self_of_isPrefixOf pyWS hpre h1
  rw [h2, List.reverse_reverse, dropWhile_dropWhile_self]

/-- `pyStrip` is idempotent (Python `s.strip().strip() == s.strip()`). -/
theorem pyStrip_idem (s : String) : pyStrip (pyStrip s) = pyStrip s := by
  unfold pyStrip
  simp [stripChars_idem]

/-- `getD` returns a member of the list whenever the default is one. -/
theorem getD_mem_of_mem {α : Type} {l : List α} {d : α} (h : d ∈ l) (i : Nat) :
    l.getD i d ∈ l := by
  rw [List.getD_eq_getElem?_getD]
  cases hg : l[i]? with
  | none => simpa using h
  | some a =>
    simp only [Option.getD_some]
    exact List.getElem?_mem hg

/-- Removing the element at a valid index and putting it back in front is a
permutation of the original list. -/
theorem getD_cons_eraseIdx_perm {α : Type} :
    ∀ (l : List α) (j : Nat), j < l.length → ∀ d : α,
      (l.getD j d :: l.eraseIdx j).Perm l := by
  intro l
  induction l with
  | nil => intro j hj; simp at hj
  | cons a t ih =>
    intro j hj d
    cases j with
    | zero => simp
    | succ j =>
      rw [List.getD_cons_succ, List.eraseIdx_cons_succ]
      have hj' : j < t.length := by simpa using hj
      exact (List.Perm.swap a (t.getD j d) (t.eraseIdx j)).trans
        ((ih j hj' d).cons a)

/-- `pickAux` emits exactly `min k l.length` items. -/
theorem pickAux_length (rand : Nat → Nat) :
    ∀ (k step : Nat) (l : List Question),
      (pickAux rand step l k).length = min k l.length := by
  intro k
  induction k with
  | zero => intro step l; simp [pickAux]
  | succ k ih =>
    intro step l
    cases l with
    | nil => simp [pickAux]
    | cons a t =>
      have hj : rand step % (t.length + 1) < t.length + 1 :=
        Nat.mod_lt _ (by omega)
      simp only [pickAux, List.length_cons, ih, List.length_eraseIdx]
      rw [if_pos hj]
      omega

/-- `pickAux` draws without replacement: its output is a sub-permutation of
the remaining pool. -/
theorem pickAux_subperm (rand : Nat → Nat) :
    ∀ (k step : Nat) (l : List Question), (pickAux rand step l k).Subperm l := by
  intro k
  induction k with
  | zero => intro step l; simp [pickAux]
  | succ k ih =>
    intro step l
    cases l with
    | nil => simp [pickAux]
    | cons a t =>
      have hj : rand step % (a :: t).length < (a :: t).length :=
        Nat.mod_lt _ (by simp)
      simp only [pickAux]
      have hsub : (pickAux rand (step + 1) ((a :: t).eraseIdx (rand step % (a :: t).length)) k).Subperm
          ((a :: t).eraseIdx (rand step % (a :: t).length)) := ih _ _
      have hcons := (List.subperm_cons ((a :: t).getD (rand step % (a :: t).length) a)).mpr hsub
      exact hcons.trans (getD_cons_eraseIdx_perm (a :: t) _ hj a).subperm

/-- When the whole pool is requested, `pickAux` returns a permutation of it. -/
theorem pickAux_perm_of_le (rand : Nat → Nat) (k step : Nat) (l : List Question)
    (h : l.length ≤ k) : (pickAux rand step l k).Perm l := by
  apply (pickAux_subperm rand k step l).perm_of_length_le
  rw [pickAux_length]
  omega

/-- The accumulator fold inside `get_next_id` is the `max`-fold over the
ids that convert. -/
theorem get_next_id_foldl :
    ∀ (questions : List RawDict) (acc : Int),
      questions.foldl
        (fun max_id q =>
          match pyToInt (q.id.getD (.vint 0)) with
          | some qid => if qid > max_id then qid else max_id
          | none => max_id)
        acc =
      (questions.filterMap (fun q => pyToInt (q.id.getD (.vint 0)))).foldl max acc := by
  intro questions
  induction questions with
  | nil => intro acc; rfl
  | cons d qs ih =>
    intro acc
    simp only [List.foldl_cons, List.filterMap_cons]
    cases hd : pyToInt (d.id.getD (.vint 0)) with
    | none => exact ih acc
    | some q =>
      simp only [List.foldl_cons]
      rw [ih]
      congr 1
      by_cases h : q > acc
      · rw [if_pos h, max_eq_right h.le]
      · rw [if_neg h, max_eq_left (by omega)]

/-- `as_dict` always stores the numeric id under the `id` key. -/
theorem as_dict_id (q : Question) :
    (Question.as_dict q).id = some (.vint q.base.id) := by
  cases q <;> rfl

/-- `assignIds` keeps the batch size. -/
theorem assignIds_length (next : Int) :
    ∀ l : List Question, (assignIds next l).length = l.length := by
  intro l
  induction l generalizing next with
  | nil => rfl
  | cons q rest ih => simp [assignIds, ih]

/-- The `i`-th assigned question is the `i`-th input with id `next + i`. -/
theorem assignIds_getD :
    ∀ (l : List Question) (next : Int) (i : Nat), i < l.length → ∀ d : Question,
      (assignIds next l).getD i d = (l.getD i d).setId (next + i) := by
  intro l
  induction l with
  | nil => intro next i hi; simp at hi
  | cons q rest ih =>
    intro next i hi d
    cases i with
    | zero => simp [assignIds]
    | succ i =>
      rw [List.getD_cons_succ]
      simp only [assignIds, List.getD_cons_succ]
      rw [ih (next + 1) i (by simpa using hi) d]
      congr 1
      push_cast
      ring

/-- The computed weight is exactly the spec formula
`max(0.1, 1 + max(0, incorrect) - 0.25 * max(0, correct))`. -/
theorem weight_eq_max (q : Question) :
    weight q =
      max (1/10)
        (1 + ((max 0 q.base.incorrect_count : Int) : ℚ)
          - (1/4) * ((max 0 q.base.correct_count : Int) : ℚ)) := by
  simp only [weight]
  split_ifs with h
  · exact (max_eq_left h.le).symm
  · exact (max_eq_right (not_lt.mp h)).symm

/-- C1: `weighted_choice(questions)` fails with an input-validation error
when `questions` is empty; on any non-empty list it returns an element of
that list; the weight computed for each candidate equals
`max(0.1, 1 + max(0, incorrect_count) - 0.25 * max(0, correct_count))`
(`0.1` and `0.25` taken exactly over `ℚ`), so every weight is at least
`0.1` no matter how large or how negative either counter is. -/
theorem weighted_choice_spec :
    (∀ x : ℚ, weighted_choice x [] = .error "No questions to choose from") ∧
    (∀ (x : ℚ) (q : Question) (rest : List Question),
      ∃ p, weighted_choice x (q :: rest) = .ok p ∧ p ∈ q :: rest) ∧
    (∀ q : Question,
      weight q =
        max (1/10)
          (1 + ((max 0 q.base.incorrect_count : Int) : ℚ)
            - (1/4) * ((max 0 q.base.correct_count : Int) : ℚ))) ∧
    (∀ q : Question, (1/10 : ℚ) ≤ weight q) := by
  refine ⟨fun x => rfl, ?_, weight_eq_max, ?_⟩
  · intro x q rest
    exact ⟨_, rfl, getD_mem_of_mem (List.mem_cons_self q rest) _⟩
  · intro q
    rw [weight_eq_max]
    exact le_max_left _ _

/-- C2: `get_next_id(questions)` is 1 plus the `max`-fold (from 0) of the
stored ids that convert via `int(...)`, malformed ids being skipped, with
the four spec examples. -/
theorem get_next_id_spec :
    (∀ questions : List RawDict,
      get_next_id questions =
        1 + (questions.filterMap (fun q => pyToInt (q.id.getD (.vint 0)))).foldl max 0) ∧
    get_next_id [] = 1 ∧
    get_next_id [{ id := some (.vint 1) }, { id := some (.vint 3) },
      { id := some (.vint 2) }] = 4 ∧
    get_next_id [{ id := some (.vstr "5") }, { id := some .vnone },
      { id := some (.vstr "not a number") }] = 6 ∧
    get_next_id [{ id := some (.vint (-1)) }, { id := some (.vint 0) },
      { id := some (.vint 2) }] = 3 := by
  refine ⟨?_, by decide, by decide, by decide, by decide⟩
  intro qs
  rw [get_next_id, get_next_id_foldl]
  omega

/-- C7: `record_result(question, is_correct)` increments `times_shown` by
exactly 1, increments exactly the counter matching `is_correct`, leaves
every other field (base and variant payload) unchanged, and preserves
`times_shown == correct_count + incorrect_count`. -/
theorem record_result_spec :
    ∀ (question : Question) (is_correct : Bool),
      (record_result question is_correct).base.times_shown =
        question.base.times_shown + 1 ∧
      (is_correct = true →
        (record_result question is_correct).base.correct_count =
          question.base.correct_count + 1 ∧
        (record_result question is_correct).base.incorrect_count =
          question.base.incorrect_count) ∧
      (is_correct = false →
        (record_result question is_correct).base.incorrect_count =
          question.base.incorrect_count + 1 ∧
        (record_result question is_correct).base.correct_count =
          question.base.correct_count) ∧
      (record_result question is_correct).base.id = question.base.id ∧
      (record_result question is_correct).base.topic = question.base.topic ∧
      (record_result question is_correct).base.type = question.base.type ∧
      (record_result question is_correct).base.question = question.base.question ∧
      (record_result question is_correct).base.source = question.base.source ∧
      (record_result question is_correct).base.active = question.base.active ∧
      (record_result question is_correct).payload = question.payload ∧
      (question.base.times_shown =
          question.base.correct_count + question.base.incorrect_count →
        (record_result question is_correct).base.times_shown =
          (record_result question is_correct).base.correct_count +
            (record_result question is_correct).base.incorrect_count) := by
  intro q c
  cases q <;> cases c <;>
    simp [record_result, Question.mapBase, Question.base, Question.payload] <;>
    omega

/-- C8: `random_unique(questions, n)` returns exactly `min(n, len)` items
drawn without replacement from `questions` (a sub-permutation), is empty
for every `n ≤ 0`, and is a permutation of all of `questions` whenever
`n ≥ len(questions)`. -/
theorem random_unique_spec :
    ∀ (rand : Nat → Nat) (questions : List Question) (n : Int),
      (random_unique rand questions n).length = min n.toNat questions.length ∧
      (random_unique rand questions n).Subperm questions ∧
      (n ≤ 0 → random_unique rand questions n = []) ∧
      ((questions.length : Int) ≤ n →
        (random_unique rand questions n).Perm questions) := by
  intro rand qs n
  by_cases hn : n ≤ 0
  · have h0 : n.toNat = 0 := Int.toNat_eq_zero.mpr hn
    refine ⟨?_, ?_, fun _ => ?_, fun hlen => ?_⟩
    · simp [random_unique, hn, h0]
    · simp [random_unique, hn]
    · simp [random_unique, hn]
    · have hq : qs = [] := List.length_eq_zero.mp (by omega)
      simp [random_unique, hn, hq]
  · refine ⟨?_, ?_, fun hc => absurd hc hn, fun hlen => ?_⟩
    · rw [random_unique, if_neg hn, pickAux_length]
      omega
    · rw [random_unique, if_neg hn]
      exact pickAux_subperm rand _ 0 qs
    · rw [random_unique, if_neg hn]
      apply pickAux_perm_of_le
      omega

/-- Witness for C8 at concrete inputs. -/
theorem random_unique_spec_witness :
    random_unique (fun k => k) exStore (-1) = [] ∧
    (random_unique (fun k => k) exStore 5).Perm exStore :=
  ⟨(random_unique_spec (fun k => k) exStore (-1)).2.2.1 (by decide),
   (random_unique_spec (fun k => k) exStore 5).2.2.2 (by decide)⟩

/-- C9: `add_questions` leaves the existing questions unchanged in place,
appends the new ones in input order, and assigns them the consecutive ids
`m+1, m+2, ...` where `m` is the `max`-fold (from 0) of the existing ids;
on a store with ids 1, 3, 2 the batch receives ids 4, 5, 6. -/
theorem add_questions_spec :
    ∀ (questions new_questions : List Question),
      (add_questions questions new_questions).take questions.length = questions ∧
      (add_questions questions new_questions).length =
        questions.length + new_questions.length ∧
      (∀ i : Nat, i < new_questions.length →
        (add_questions questions new_questions).getD (questions.length + i) sampleQ =
          (new_questions.getD i sampleQ).setId
            ((questions.map (fun q => q.base.id)).foldl max 0 + 1 + i)) ∧
      (add_questions exStore exNew).map (fun q => q.base.id) = [1, 3, 2, 4, 5, 6] := by
  intro qs news
  have hnext : get_next_id (qs.map Question.as_dict) =
      (qs.map (fun q => q.base.id)).foldl max 0 + 1 := by
    rw [get_next_id, get_next_id_foldl, List.filterMap_map]
    have hfun : ((fun q => pyToInt (q.id.getD (.vint 0))) ∘ Question.as_dict) =
        some ∘ (fun q : Question => q.base.id) := by
      funext q
      simp only [Function.comp]
      rw [as_dict_id]
      rfl
    rw [hfun, List.filterMap_eq_map]
  refine ⟨?_, ?_, ?_, by decide⟩
  · rw [add_questions]
    exact List.take_left qs _
  · rw [add_questions, List.length_append, assignIds_length]
  · intro i hi
    rw [add_questions, List.getD_eq_getElem?_getD,
      List.getElem?_append_right (Nat.le_add_right _ _)]
    simp only [Nat.add_sub_cancel_left]
    rw [← List.getD_eq_getElem?_getD, assignIds_getD news _ i hi sampleQ, hnext]

/-- Witness for C9 at concrete inputs. -/
theorem add_questions_spec_witness :
    (add_questions exStore exNew).getD (exStore.length + 0) sampleQ =
      (exNew.getD 0 sampleQ).setId
        ((exStore.map (fun q => q.base.id)).foldl max 0 + 1 + 0) :=
  (add_questions_spec exStore exNew).2.2.1 0 (by decide)

/-- C10: when the stored `correct_answer` trims to the empty string, every
user choice that also trims to the empty string is judged correct by
`evaluate_mcq` (both sides of the trimmed, case-insensitive comparison are
empty). -/
theorem evaluate_mcq_blank_correct (m : MCQQuestion) (user_choice : String)
    (hca : pyStrip m.correct_answer = "") (hu : pyStrip user_choice = "") :
    (evaluate_mcq m user_choice).1 = true := by
  simp [evaluate_mcq, hca, hu]

/-- Witness for C10 at concrete inputs. -/
theorem evaluate_mcq_blank_correct_witness :
    (evaluate_mcq blankMCQ " ").1 = true :=
  evaluate_mcq_blank_correct blankMCQ " " (by decide) (by decide)

/-- Witness for C7 at concrete inputs. -/
theorem record_result_spec_witness :
    (record_result sampleQ true).base.correct_count =
      sampleQ.base.correct_count + 1 ∧
    (record_result sampleQ false).base.incorrect_count =
      sampleQ.base.incorrect_count + 1 ∧
    (record_result sampleQ true).base.times_shown =
      (record_result sampleQ true).base.correct_count +
        (record_result sampleQ true).base.incorrect_count :=
  ⟨((record_result_spec sampleQ true).2.1 rfl).1,
   ((record_result_spec sampleQ false).2.2.1 rfl).1,
   (record_result_spec sampleQ true).2.2.2.2.2.2.2.2.2.2 (by decide)⟩

/-- C3 counterexample: a record whose `id` value is a non-numeric string
makes `from_dict` raise (the uncaught `int("not a number")`), instead of
being repaired with a default. -/
theorem from_dict_malformed_id_raises :
    Question.from_dict { id := some (.vstr "not a number") } = none := rfl

/-- C3 (amended): `from_dict` replaces every missing field by its safe
default, and returns a question without raising on every mapping whose
`id`/counter values convert via `int(...)`, whose `type` value lowercases
(is a string or absent/falsy), and whose `options` value (consulted only in
the multiple-choice branch) converts via `list(...)`. -/
theorem from_dict_defaults_and_convertible :
    Question.from_dict {} =
      some (.freeform
        { base := { id := 0
                    topic := ""
                    type := ""
                    question := ""
                    source := "LLM"
                    active := true
                    times_shown := 0
                    correct_count := 0
                    incorrect_count := 0 }
          reference_answer := "" }) ∧
    (∀ d : RawDict,
      (pyToInt (d.id.getD (.vint 0))).isSome = true →
      (pyToInt (d.times_shown.getD (.vint 0))).isSome = true →
      (pyToInt (d.correct_count.getD (.vint 0))).isSome = true →
      (pyToInt (d.incorrect_count.getD (.vint 0))).isSome = true →
      (pyLowerVal (pyOr (d.type.getD .vnone) (.vstr ""))).isSome = true →
      (pyToList (pyOr (d.options.getD (.vlist [])) (.vlist []))).isSome = true →
      (Question.from_dict d).isSome = true) := by
  refine ⟨rfl, ?_⟩
  intro d h1 h2 h3 h4 h5 h6
  rw [Option.isSome_iff_exists] at h1 h2 h3 h4 h5 h6
  obtain ⟨i1, e1⟩ := h1
  obtain ⟨i2, e2⟩ := h2
  obtain ⟨i3, e3⟩ := h3
  obtain ⟨i4, e4⟩ := h4
  obtain ⟨qt, e5⟩ := h5
  obtain ⟨ol, e6⟩ := h6
  simp only [Question.from_dict, e1, e2, e3, e4, e5, e6, Option.bind_eq_bind,
    Option.some_bind]
  split_ifs <;> simp

/-- Witness for the amended C3 at a concrete well-formed mapping. -/
theorem from_dict_defaults_and_convertible_witness :
    (Question.from_dict { id := some (.vstr " 7 ")
                          type := some (.vstr "Multiple-Choice")
                          options := some (.vstr "ab")
                          active := some (.vint 0) }).isSome = true :=
  from_dict_defaults_and_convertible.2 _ (by decide) (by decide) (by decide)
    (by decide) (by decide) (by decide)

/-- `options or []` is the identity on list values (an empty list is falsy
but the fallback is the empty list again). -/
theorem pyOr_vlist_nil (l : List PyVal) : pyOr (.vlist l) (.vlist []) = .vlist l := by
  cases l <;> rfl

/-- Reading back the conditionally-written `explanation` key recovers the
original value (`vnone` when the key was omitted). -/
theorem explanation_key_getD (ex : PyVal) :
    (if ex.isNoneV then (none : Option PyVal) else some ex).getD .vnone = ex := by
  cases ex <;> rfl

/-- Lowering `type or ""` is the identity on already-lowercase tags. -/
theorem pyLowerVal_pyOr_vstr (s : String) (h : pyLower s = s) :
    pyLowerVal (pyOr (.vstr s) (.vstr "")) = some s := by
  by_cases hs : s = ""
  · subst hs; rfl
  · have ht : pyTruthy (.vstr s) = true := by simp [pyTruthy, hs]
    rw [pyOr, ht]
    simp [pyLowerVal, h]

/-- C4 counterexample: an `MCQQuestion` whose `type` tag is `"zzz"` (a tag
that does not lowercase to `"multiple-choice"`) does not survive the round
trip — it deserializes as a `FreeformQuestion`. -/
theorem roundtrip_fails_on_noncanonical_type :
    Question.from_dict qBadType.as_dict =
      some (.freeform
        { base := { id := 7
                    topic := "math"
                    type := "zzz"
                    question := "2+2?"
                    source := "LLM"
                    active := true
                    times_shown := 3
                    correct_count := 2
                    incorrect_count := 1 }
          reference_answer := "" }) ∧
    Question.from_dict qBadType.as_dict ≠ some qBadType := by
  refine ⟨rfl, fun h => ?_⟩
  exact Question.noConfusion (Option.some.inj h)

/-- C4 (amended): serialize-then-deserialize is the identity on every
`MCQQuestion` whose `type` tag is the canonical `"multiple-choice"` and on
every `FreeformQuestion` whose `type` tag is lowercase and differs from
`"multiple-choice"` (the invariant every constructor call in the program
maintains); and an absent (`None`) explanation is omitted from the mapping
rather than stored as a null marker. -/
theorem as_dict_from_dict_roundtrip :
    (∀ m : MCQQuestion, m.base.type = "multiple-choice" →
      Question.from_dict (Question.mcq m).as_dict = some (.mcq m)) ∧
    (∀ f : FreeformQuestion, pyLower f.base.type = f.base.type →
      f.base.type ≠ "multiple-choice" →
      Question.from_dict (Question.freeform f).as_dict = some (.freeform f)) ∧
    (∀ m : MCQQuestion, m.explanation = .vnone →
      ((Question.mcq m).as_dict).explanation = none) := by
  refine ⟨?_, ?_, ?_⟩
  · intro m hty
    obtain ⟨b, opts, ca, ex⟩ := m
    obtain ⟨i, tp, ty, qq, src, act, ts, cc, ic⟩ := b
    simp only at hty
    subst hty
    simp only [Question.as_dict, QBase.baseDict, Question.from_dict,
      Option.getD_some, Option.bind_eq_bind, Option.some_bind,
      pyLowerVal_pyOr_vstr "multiple-choice" (by decide), pyToInt,
      pyOr_vlist_nil, pyToList, pyStr, pyTruthy, if_pos,
      explanation_key_getD]
  · intro f hlow hne
    obtain ⟨b, ref⟩ := f
    obtain ⟨i, tp, ty, qq, src, act, ts, cc, ic⟩ := b
    simp only at hlow hne
    simp only [Question.as_dict, QBase.baseDict, Question.from_dict,
      Option.getD_some, Option.bind_eq_bind, Option.some_bind,
      pyLowerVal_pyOr_vstr ty hlow, pyToInt, pyStr, pyTruthy]
    rw [if_neg hne]
  · intro m hex
    simp [Question.as_dict, hex, PyVal.isNoneV]

/-- Witness for the amended C4 at concrete round trips. -/
theorem as_dict_from_dict_roundtrip_witness :
    Question.from_dict (Question.mcq sampleMCQ).as_dict = some (.mcq sampleMCQ) ∧
    Question.from_dict (Question.freeform sampleFree).as_dict =
      some (.freeform sampleFree) ∧
    ((Question.mcq sampleMCQ).as_dict).explanation = none :=
  ⟨as_dict_from_dict_roundtrip.1 sampleMCQ (by decide),
   as_dict_from_dict_roundtrip.2.1 sampleFree (by decide) (by decide),
   as_dict_from_dict_roundtrip.2.2 sampleMCQ (by rfl)⟩

/-- C5 counterexample: a record whose `type` value is `"Multiple-Choice"`
(not the lowercase literal) still builds an `MCQQuestion`, and a truthy
non-string `type` value makes `from_dict` raise instead of falling back to
a `FreeformQuestion`. -/
theorem from_dict_dispatch_counterexample :
    Question.from_dict { type := some (.vstr "Multiple-Choice") } =
      some (.mcq
        { base := { id := 0
                    topic := ""
                    type := "multiple-choice"
                    question := ""
                    source := "LLM"
                    active := true
                    times_shown := 0
                    correct_count := 0
                    incorrect_count := 0 }
          options := []
          correct_answer := ""
          explanation := .vnone }) ∧
    ("Multiple-Choice" : String) ≠ "multiple-choice" ∧
    Question.from_dict { type := some (.vint 1) } = none :=
  ⟨rfl, by decide, rfl⟩

/-- C5 (amended): on every mapping on which `from_dict` succeeds, the
result is an `MCQQuestion` exactly when the `type` value, run through
`(type or "").lower()`, is `"multiple-choice"` (i.e. the stored tag is a
string case-insensitively equal to it), and a `FreeformQuestion` for every
other value, including unrecognized tags such as `"mcq"`. -/
theorem from_dict_dispatch :
    (∀ (d : RawDict) (q : Question), Question.from_dict d = some q →
      (q.isMCQ = true ↔
        pyLowerVal (pyOr (d.type.getD .vnone) (.vstr "")) = some "multiple-choice")) ∧
    Question.from_dict { type := some (.vstr "mcq") } =
      some (.freeform
        { base := { id := 0
                    topic := ""
                    type := "mcq"
                    question := ""
                    source := "LLM"
                    active := true
                    times_shown := 0
                    correct_count := 0
                    incorrect_count := 0 }
          reference_answer := "" }) := by
  refine ⟨?_, rfl⟩
  intro d q h
  simp only [Question.from_dict, Option.bind_eq_bind, Option.bind_eq_some] at h
  obtain ⟨qtype, hqt, h⟩ := h
  obtain ⟨i1, e1, h⟩ := h
  obtain ⟨t1, e2, h⟩ := h
  obtain ⟨c1, e3, h⟩ := h
  obtain ⟨ic1, e4, h⟩ := h
  rw [hqt]
  by_cases hq : qtype = "multiple-choice"
  · subst hq
    rw [if_pos rfl] at h
    simp only [Option.bind_eq_some] at h
    obtain ⟨opts, e6, h⟩ := h
    obtain rfl := Option.some.inj h
    simp [Question.isMCQ]
  · rw [if_neg hq] at h
    obtain rfl := Option.some.inj h
    simp [Question.isMCQ, hq]

/-- Witness for the amended C5 at a concrete mapping. -/
theorem from_dict_dispatch_witness :
    (Question.mcq
      { base := { id := 0
                  topic := ""
                  type := "multiple-choice"
                  question := ""
                  source := "LLM"
                  active := true
                  times_shown := 0
                  correct_count := 0
                  incorrect_count := 0 }
        options := []
        correct_answer := ""
        explanation := .vnone }).isMCQ = true ↔
    pyLowerVal (pyOr ((({ type := some (.vstr "Multiple-Choice") } : RawDict)).type.getD .vnone)
      (.vstr "")) = some "multiple-choice" :=
  from_dict_dispatch.1 _ _ rfl

/-- C6: `evaluate_freeform` short-circuits blank answers to
`(false, "The question was not answered")` independently of the delegated
call; on an error-shaped delegated result it returns
`(false, "LLM error: " + message)` with `message` defaulting to
`"Unknown"`; on a normal delegated result, correctness holds exactly when
the result's `judgment` field is case-insensitively `"correct"` (the field
is pre-stripped by `judge_freeform`), and its `explanation` field passes
through (empty string if absent). -/
theorem evaluate_freeform_spec :
    (∀ (fq : FreeformQuestion) (user_answer : String) (net : NetResult),
      pyStrip user_answer = "" →
      evaluate_freeform fq user_answer net =
        (false, "The question was not answered")) ∧
    (∀ (fq : FreeformQuestion) (user_answer : String) (net : NetResult)
      (e : ErrObj),
      pyStrip user_answer ≠ "" →
      (judge_freeform net).error = some e →
      evaluate_freeform fq user_answer net =
        (false, "LLM error: " ++ e.message.getD "Unknown")) ∧
    (∀ (fq : FreeformQuestion) (user_answer : String) (net : NetResult),
      pyStrip user_answer ≠ "" →
      (judge_freeform net).error = none →
      ((evaluate_freeform fq user_answer net).1 = true ↔
        pyLower ((judge_freeform net).judgment.getD "") = "correct") ∧
      (evaluate_freeform fq user_answer net).2 =
        (judge_freeform net).explanation.getD "") := by
  refine ⟨?_, ?_, ?_⟩
  · intro fq ua net h
    simp [evaluate_freeform, h]
  · intro fq ua net e h he
    simp only [evaluate_freeform, if_neg h, he]
  · intro fq ua net h he
    have hnet : net.error = none := by
      by_cases hs : net.error.isSome
      · rw [judge_freeform, if_pos hs] at he
        exact he
      · exact Option.not_isSome_iff_eq_none.mp hs
    have hj : judge_freeform net =
        { error := none
          judgment := some (pyStrip (net.judgment.getD ""))
          explanation := some (pyStrip (net.explanation.getD "")) } := by
      rw [judge_freeform, if_neg (by simp [hnet])]
    refine ⟨?_, ?_⟩
    · simp only [evaluate_freeform, if_neg h, hj, Option.getD_some]
      rw [pyStrip_idem]
      exact decide_eq_true_iff
    · simp [evaluate_freeform, if_neg h, hj]

/-- Witness for C6 at concrete inputs. -/
theorem evaluate_freeform_spec_witness :
    evaluate_freeform sampleFree "   " { judgment := some "Correct" } =
      (false, "The question was not answered") ∧
    evaluate_freeform sampleFree "hi" { error := some { message := none } } =
      (false, "LLM error: " ++ (none : Option String).getD "Unknown") ∧
    ((evaluate_freeform sampleFree "hi" { judgment := some " Correct " }).1 = true ↔
      pyLower ((judge_freeform { judgment := some " Correct " }).judgment.getD "") =
        "correct") :=
  ⟨evaluate_freeform_spec.1 sampleFree "   " { judgment := some "Correct" } (by decide),
   evaluate_freeform_spec.2.1 sampleFree "hi" { error := some { message := none } }
     { message := none } (by decide) rfl,
   (evaluate_freeform_spec.2.2 sampleFree "hi" { judgment := some " Correct " }
     (by decide) rfl).1⟩
